import Mathlib

/-!
Verification of the annotation aggregation and check-reporting pipeline of
checkstyle-github-action (src/main.ts) against its specification.

The TypeScript source is shallowly embedded: pure helpers become Lean
functions, and the effectful pipeline (`run`, `createCheck`) becomes a pure
function producing a trace of observable events (log lines, issued workflow
commands, collaborator and remote API calls) together with a process outcome.
External collaborators (file search, per-file parsing, the remote checks API)
are passed in as an environment of pure functions; fallible remote calls
return `Except String`.
-/

namespace CheckstyleAction

/-- Severity of a finding, `AnnotationLevel` from github.ts. -/
inductive AnnotationLevel
  | notice
  | warning
  | failure
deriving DecidableEq, Repr

/-- String form of a severity, as it appears in log lines. -/
def AnnotationLevel.toString : AnnotationLevel → String
  | .notice => "notice"
  | .warning => "warning"
  | .failure => "failure"

/-- A single finding at a file location (the `Annotation` record of github.ts). -/
structure Annotation where
  path : String
  start_line : Nat
  end_line : Nat
  start_column : Option Nat
  end_column : Option Nat
  annotation_level : AnnotationLevel
  message : String
deriving DecidableEq, Repr

/-- The overall verdict type, `'success' | 'failure' | 'neutral'` in main.ts. -/
inductive Conclusion
  | success
  | failure
  | neutral
deriving DecidableEq, Repr

/-- String form of a conclusion, as it appears in log lines. -/
def Conclusion.toString : Conclusion → String
  | .success => "success"
  | .failure => "failure"
  | .neutral => "neutral"

/-- `MAX_ANNOTATIONS_PER_REQUEST` from main.ts line 10. -/
def MAX_ANNOTATIONS_PER_REQUEST : Nat := 50

/-- Ramda's `splitEvery`: consecutive non-overlapping windows of size `n`,
the final window possibly shorter; `splitEvery n [] = []`.  (Ramda throws on
`n ≤ 0`; the embedding is only ever used, and only ever reasoned about, with
`n > 0`.)  For a nonempty list and `n = m + 1` the head window is
`a :: l.take m = (a :: l).take n` and the rest is `l.drop m = (a :: l).drop n`. -/
def splitEvery (n : Nat) : List α → List (List α)
  | [] => []
  | a :: l => (a :: l.take (n - 1)) :: splitEvery n (l.drop (n - 1))
termination_by l => l.length
decreasing_by
  simp only [List.length_drop, List.length_cons]
  omega

/-- The Batcher, main.ts lines 43-46:
`annotations.length > limit ? splitEvery(limit, annotations) : [annotations]`.
The source fixes `limit = MAX_ANNOTATIONS_PER_REQUEST`; the bound is kept as a
parameter here so the contract can be stated for every positive limit. -/
def batch (annotations : List Annotation) (limit : Nat) : List (List Annotation) :=
  if annotations.length > limit then splitEvery limit annotations else [annotations]

/-- The Verdict Calculator, `getConclusion` of main.ts lines 93-118.  The
source groups the annotations by level and tests whether the `failure`
(resp. `warning`) bucket exists and is nonempty; the bucket for a level is
exactly the sublist of annotations having that level. -/
def getConclusion (annotations : List Annotation) : Conclusion :=
  if annotations.length = 0 then
    .success
  else
    let failures := annotations.filter (fun a => a.annotation_level == AnnotationLevel.failure)
    let warnings := annotations.filter (fun a => a.annotation_level == AnnotationLevel.warning)
    if failures.length ≠ 0 then .failure
    else if warnings.length ≠ 0 then .neutral
    else .success

/-- One check run as returned by `octokit.checks.listForRef` (only the fields
the source reads: `id` and `name`). -/
structure CheckRun where
  id : Nat
  name : String
deriving DecidableEq, Repr

/-- The `output` payload shared by the create and update requests. -/
structure Output where
  title : String
  summary : String
  annotations : List Annotation
deriving DecidableEq, Repr

/-- The request built for `octokit.checks.create` (main.ts lines 148-159);
the repository coordinates spread from `context.repo` are ambient and elided. -/
structure CreateRequest where
  head_sha : String
  conclusion : Conclusion
  name : String
  status : String
  output : Output
deriving DecidableEq, Repr

/-- The request built for `octokit.checks.update` (main.ts lines 165-175). -/
structure UpdateRequest where
  conclusion : Conclusion
  check_run_id : Nat
  status : String
  output : Output
deriving DecidableEq, Repr

/-- Location properties of an issued workflow command (main.ts lines 78-82). -/
structure CommandProperties where
  file : String
  line : Nat
  col : Option Nat
deriving DecidableEq, Repr

/-- A workflow command issued via `command.issueCommand`. -/
structure IssuedCommand where
  command : String
  properties : CommandProperties
  message : String
deriving DecidableEq, Repr

/-- Log levels of the build-log sink (`core.info` / `core.warning` /
`core.debug` / `core.error`). -/
inductive LogLevel
  | info
  | warning
  | debug
  | error
deriving DecidableEq, Repr

/-- One observable effect of the pipeline: a log line, an issued workflow
command, an invocation of the search or parse collaborator, or a remote
checks-API call. -/
inductive Event
  | log (level : LogLevel) (msg : String)
  | issueCmd (cmd : IssuedCommand)
  | searchCall (path : String)
  | parseCall (file : String)
  | apiListForRef (ref : String)
  | apiCreate (req : CreateRequest)
  | apiUpdate (req : UpdateRequest)
deriving DecidableEq, Repr

/-- Whether an event is a create-or-update call against the checks API. -/
def Event.isReportCall : Event → Bool
  | .apiCreate _ => true
  | .apiUpdate _ => true
  | _ => false

/-- Whether an event is any remote checks-API call (list, create or update). -/
def Event.isRemoteCall : Event → Bool
  | .apiListForRef _ => true
  | .apiCreate _ => true
  | .apiUpdate _ => true
  | _ => false

/-- Whether an event is an invocation of the search, parse or report
collaborators. -/
def Event.isCollaboratorCall : Event → Bool
  | .searchCall _ => true
  | .parseCall _ => true
  | .apiListForRef _ => true
  | .apiCreate _ => true
  | .apiUpdate _ => true
  | _ => false

/-- The issued workflow command carried by an event, if any. -/
def Event.cmd? : Event → Option IssuedCommand
  | .issueCmd c => some c
  | _ => none

/-- The message of an info-level log event, if any. -/
def Event.infoMsg? : Event → Option String
  | .log .info m => some m
  | _ => none

/-- Whether an event is an error-level log line. -/
def Event.isErrorLog : Event → Bool
  | .log .error _ => true
  | _ => false

/-- Whether an event is a warning-level log line. -/
def Event.isWarningLog : Event → Bool
  | .log .warning _ => true
  | _ => false

/-- The conclusion carried by a create-or-update request event, if any. -/
def Event.reportConclusion? : Event → Option Conclusion
  | .apiCreate r => some r.conclusion
  | .apiUpdate r => some r.conclusion
  | _ => none

/-- The `output.summary` carried by a create-or-update request event, if any. -/
def Event.reportSummary? : Event → Option String
  | .apiCreate r => some r.output.summary
  | .apiUpdate r => some r.output.summary
  | _ => none

/-- The `status` carried by a create-or-update request event, if any. -/
def Event.reportStatus? : Event → Option String
  | .apiCreate r => some r.status
  | .apiUpdate r => some r.status
  | _ => none

/-- The ambient GitHub execution context together with the remote checks API,
modelled as pure response functions.  `prHeadSha` is
`context.payload.pull_request?.head.sha`; a remote call either succeeds or
raises an error message. -/
structure GitHubEnv where
  contextSha : String
  prHeadSha : Option String
  listForRef : String → Except String (List CheckRun)
  createResult : CreateRequest → Except String Unit
  updateResult : UpdateRequest → Except String Unit

/-- The commit the report targets, main.ts lines 131-135: the pull request's
head commit when running in a pull-request context, else the triggering
commit. -/
def resolveSha (gh : GitHubEnv) : String :=
  match gh.prHeadSha with
  | some prSha => prSha
  | none => gh.contextSha

/-- The `output` payload shared by the create and update requests of a batch
call (main.ts lines 154-158 and 170-174). -/
def reportOutput (title : String) (numErrors : Nat) (annotations : List Annotation) : Output :=
  { title := title
    summary := toString numErrors ++ " violation(s) found"
    annotations := annotations }

/-- The `createRequest` of main.ts lines 148-159. -/
def mkCreateRequest (sha name title : String) (annotations : List Annotation)
    (numErrors : Nat) (conclusion : Conclusion) : CreateRequest :=
  { head_sha := sha
    conclusion := conclusion
    name := name
    status := "completed"
    output := reportOutput title numErrors annotations }

/-- The `update_req` of main.ts lines 165-175. -/
def mkUpdateRequest (check_run_id : Nat) (title : String) (annotations : List Annotation)
    (numErrors : Nat) (conclusion : Conclusion) : UpdateRequest :=
  { conclusion := conclusion
    check_run_id := check_run_id
    status := "completed"
    output := reportOutput title numErrors annotations }

/-- The message of the upload info line logged at main.ts lines 127-129. -/
def uploadMsg (annotations : List Annotation) (numErrors : Nat) (name : String)
    (conclusion : Conclusion) : String :=
  "Uploading " ++ toString annotations.length ++ " / " ++ toString numErrors
    ++ " annotations to GitHub as " ++ name ++ " with conclusion " ++ conclusion.toString

/-- The events emitted by one `createCheck` call (main.ts lines 120-179): the
upload info line, the `listForRef` call against the resolved commit, then —
when listing succeeded — the create call (no listed run has the configured
name) or the update call against the found run.  A remote call that raises is
still a call that was made, so the trace does not depend on the create/update
results; the raised error is computed by `createCheckError` below. -/
def createCheckEvents (gh : GitHubEnv) (name title : String) (annotations : List Annotation)
    (numErrors : Nat) (conclusion : Conclusion) : List Event :=
  let infoEvent := Event.log .info (uploadMsg annotations numErrors name conclusion)
  let sha := resolveSha gh
  match gh.listForRef sha with
  | .error _ => [infoEvent, .apiListForRef sha]
  | .ok checkRuns =>
    match checkRuns.find? (fun check => check.name == name) with
    | none =>
      [infoEvent, .apiListForRef sha,
       .apiCreate (mkCreateRequest sha name title annotations numErrors conclusion)]
    | some existingCheckRun =>
      [infoEvent, .apiListForRef sha,
       .apiUpdate (mkUpdateRequest existingCheckRun.id title annotations numErrors conclusion)]

/-- The error raised by one `createCheck` call, if any: the first failing
remote call among `listForRef` and the chosen create/update call. -/
def createCheckError (gh : GitHubEnv) (name title : String) (annotations : List Annotation)
    (numErrors : Nat) (conclusion : Conclusion) : Option String :=
  let sha := resolveSha gh
  match gh.listForRef sha with
  | .error err => some err
  | .ok checkRuns =>
    match checkRuns.find? (fun check => check.name == name) with
    | none =>
      match gh.createResult (mkCreateRequest sha name title annotations numErrors conclusion) with
      | .error err => some err
      | .ok _ => none
    | some existingCheckRun =>
      match gh.updateResult
          (mkUpdateRequest existingCheckRun.id title annotations numErrors conclusion) with
      | .error err => some err
      | .ok _ => none

/-- The Check Reporter, `createCheck` of main.ts lines 120-179: the trace of
its observable events together with the error message it raises, if any. -/
def createCheck (gh : GitHubEnv) (name title : String) (annotations : List Annotation)
    (numErrors : Nat) (conclusion : Conclusion) : List Event × Option String :=
  (createCheckEvents gh name title annotations numErrors conclusion,
   createCheckError gh name title annotations numErrors conclusion)

/-- The configuration inputs read at main.ts lines 14-17 (plus the token). -/
structure ActionInputs where
  path : String
  mode : String
  name : String
  title : String
  token : String

/-- The result of the external search collaborator `findResults`. -/
structure SearchResult where
  filesToUpload : List String
  rootDirectory : String

/-- The environment of external collaborators: the file search, the per-file
annotation parser, and the GitHub context and checks API. -/
structure PipelineEnv where
  findResults : String → SearchResult
  annotationsForPath : String → List Annotation
  github : GitHubEnv

/-- The process outcome: success, or the failed outcome set by
`core.setFailed`. -/
inductive Outcome
  | success
  | failed (msg : String)
deriving DecidableEq, Repr

/-- The full flattened annotation sequence of main.ts lines 35-38:
`chain(annotationsForPath, searchResult.filesToUpload)`, i.e. per-file
annotation lists concatenated in file-discovery order. -/
def fullAnnotations (inputs : ActionInputs) (env : PipelineEnv) : List Annotation :=
  ((env.findResults inputs.path).filesToUpload).flatMap env.annotationsForPath

/-- The `groupedAnnotations` of main.ts lines 43-46: the flattened sequence
batched at `MAX_ANNOTATIONS_PER_REQUEST`. -/
def groupedAnnotations (inputs : ActionInputs) (env : PipelineEnv) : List (List Annotation) :=
  batch (fullAnnotations inputs env) MAX_ANNOTATIONS_PER_REQUEST

/-- The log and parse-collaborator events emitted between the non-empty search
result and the mode dispatch (main.ts lines 30-48), in source order: the
upload-count info line, the root-directory debug line, one parse call per
discovered file, the grouping debug line, and the bucket-count debug line. -/
def preludeEvents (inputs : ActionInputs) (env : PipelineEnv) : List Event :=
  [Event.log .info ("With the provided path, there will be "
      ++ toString (env.findResults inputs.path).filesToUpload.length ++ " results uploaded"),
   Event.log .debug ("Root artifact directory is " ++ (env.findResults inputs.path).rootDirectory)]
  ++ ((env.findResults inputs.path).filesToUpload).map Event.parseCall
  ++ [Event.log .debug ("Grouping " ++ toString (fullAnnotations inputs env).length
        ++ " annotations into chunks of " ++ toString MAX_ANNOTATIONS_PER_REQUEST),
      Event.log .debug ("Created " ++ toString (groupedAnnotations inputs env).length
        ++ " buckets")]

/-- The message logged for every annotation in inline mode (main.ts
lines 68-70). -/
def annotationLogMsg (a : Annotation) : String :=
  "[Checkstyle " ++ a.annotation_level.toString ++ "] " ++ a.path ++ ":"
    ++ toString a.start_line ++ " " ++ a.message

/-- The Inline Emitter's per-annotation events (main.ts lines 63-85): the info
log line always, then the `error` workflow command only for failure-level
annotations (lower severities `continue` after the log line). -/
def inlineEvents (a : Annotation) : List Event :=
  if a.annotation_level == AnnotationLevel.failure then
    [Event.log .info (annotationLogMsg a),
     Event.issueCmd
       { command := "error"
         properties := { file := a.path, line := a.start_line, col := a.start_column }
         message := a.message }]
  else
    [Event.log .info (annotationLogMsg a)]

/-- The separate-mode loop of main.ts lines 53-61: `createCheck` is awaited
for each batch in order, and the first error aborts the remaining batches. -/
def runBatches (gh : GitHubEnv) (name title : String) (batches : List (List Annotation))
    (numErrors : Nat) (conclusion : Conclusion) : List Event × Option String :=
  match batches with
  | [] => ([], none)
  | annotationSet :: rest =>
    let result := createCheck gh name title annotationSet numErrors conclusion
    match result.2 with
    | some err => (result.1, some err)
    | none =>
      let restResult := runBatches gh name title rest numErrors conclusion
      (result.1 ++ restResult.1, restResult.2)

/-- The Pipeline Controller, `run` of main.ts lines 12-91, as a pure function
from the inputs and the collaborator environment to the event trace and the
process outcome.  The surrounding `try`/`catch` turns the error raised by a
failed remote call into `Outcome.failed` via `core.setFailed`. -/
def run (inputs : ActionInputs) (env : PipelineEnv) : List Event × Outcome :=
  if inputs.mode ≠ "inline" ∧ inputs.mode ≠ "separate" then
    ([Event.log .error ("Invalid mode provided (" ++ inputs.mode
        ++ "). Use \"inline\" or \"separate\".")], .success)
  else if (env.findResults inputs.path).filesToUpload.length = 0 then
    ([Event.searchCall inputs.path,
      Event.log .warning ("No files were found for the provided path: " ++ inputs.path
        ++ ". No results will be uploaded.")], .success)
  else
    let headEvents := Event.searchCall inputs.path :: preludeEvents inputs env
    if inputs.mode = "separate" then
      let conclusion := getConclusion (fullAnnotations inputs env)
      let batchResult := runBatches env.github inputs.name inputs.title
        (groupedAnnotations inputs env) (fullAnnotations inputs env).length conclusion
      (headEvents ++ batchResult.1,
       match batchResult.2 with
       | some err => .failed err
       | none => .success)
    else
      (headEvents ++ (fullAnnotations inputs env).flatMap inlineEvents, .success)

/-! ## Lemmas about `splitEvery` -/

theorem splitEvery_nil (n : Nat) : splitEvery n ([] : List α) = [] := by
  simp [splitEvery]

theorem splitEvery_cons (n : Nat) (a : α) (l : List α) :
    splitEvery n (a :: l) = (a :: l.take (n - 1)) :: splitEvery n (l.drop (n - 1)) := by
  rw [splitEvery]

theorem splitEvery_eq_nil_iff (n : Nat) (l : List α) : splitEvery n l = [] ↔ l = [] := by
  cases l with
  | nil => simp [splitEvery_nil]
  | cons a t => simp [splitEvery_cons]

theorem splitEvery_flatten (n : Nat) (l : List α) : (splitEvery n l).flatten = l := by
  suffices h : ∀ k (l : List α), l.length = k → (splitEvery n l).flatten = l from
    h l.length l rfl
  intro k
  induction k using Nat.strong_induction_on with
  | _ k ih =>
    intro l hk
    cases l with
    | nil => simp [splitEvery_nil]
    | cons a t =>
      rw [splitEvery_cons]
      simp only [List.flatten_cons]
      simp only [List.length_cons] at hk
      have hlt : (t.drop (n - 1)).length < k := by
        simp only [List.length_drop]
        omega
      rw [ih (t.drop (n - 1)).length hlt (t.drop (n - 1)) rfl]
      simp [List.take_append_drop]

theorem splitEvery_dropLast_length (n : Nat) (l : List α) (hn : 0 < n) :
    ∀ b ∈ (splitEvery n l).dropLast, b.length = n := by
  suffices h : ∀ k (l : List α), l.length = k → ∀ b ∈ (splitEvery n l).dropLast,
      b.length = n from h l.length l rfl
  intro k
  induction k using Nat.strong_induction_on with
  | _ k ih =>
    intro l hk
    cases l with
    | nil => simp [splitEvery_nil]
    | cons a t =>
      rw [splitEvery_cons]
      cases hys : splitEvery n (t.drop (n - 1)) with
      | nil => simp
      | cons y ys =>
        have hd : t.drop (n - 1) ≠ [] := by
          intro h
          rw [h, splitEvery_nil] at hys
          exact List.noConfusion hys
        have hlen : n - 1 ≤ t.length := by
          by_contra hlt
          exact hd (List.drop_eq_nil_of_le (Nat.le_of_lt (Nat.lt_of_not_le hlt)))
        intro b hb
        rw [List.dropLast_cons₂] at hb
        rcases List.mem_cons.mp hb with rfl | hb2
        · simp only [List.length_cons, List.length_take]
          omega
        · rw [← hys] at hb2
          simp only [List.length_cons] at hk
          have hlt : (t.drop (n - 1)).length < k := by
            simp only [List.length_drop]
            omega
          exact ih (t.drop (n - 1)).length hlt (t.drop (n - 1)) rfl b hb2

/-! ## Concrete sample data used by witnesses -/

/-- Sample failure-level finding (from the spec's inline-mode example). -/
def annF : Annotation :=
  { path := "a.java", start_line := 10, end_line := 10, start_column := some 1,
    end_column := none, annotation_level := .failure, message := "unused import" }

/-- Sample warning-level finding (from the spec's inline-mode example). -/
def annW : Annotation :=
  { path := "b.java", start_line := 4, end_line := 4, start_column := some 2,
    end_column := none, annotation_level := .warning, message := "magic number" }

/-- Sample notice-level finding. -/
def annN : Annotation :=
  { path := "c.java", start_line := 7, end_line := 7, start_column := none,
    end_column := none, annotation_level := .notice, message := "style note" }

/-! ## Claim C1 -/

/-- Claim C1: for every annotation sequence `A` and positive limit `L`, the
Batcher's output concatenates back to `A` exactly and in order; every batch
except possibly the last has length exactly `L`; and when `len(A) ≤ L` the
result is the single batch `[A]` in original order. -/
theorem batch_roundtrip (A : List Annotation) (L : Nat) (hL : 0 < L) :
    (batch A L).flatten = A ∧
    (∀ b ∈ (batch A L).dropLast, b.length = L) ∧
    (A.length ≤ L → batch A L = [A]) := by
  refine ⟨?_, ?_, ?_⟩
  · unfold batch
    split
    · exact splitEvery_flatten L A
    · simp
  · unfold batch
    split
    · exact splitEvery_dropLast_length L A hL
    · simp
  · intro h
    unfold batch
    rw [if_neg (by omega)]

/-- Witness for C1 at a concrete sequence of length 3 and limit 2. -/
theorem batch_roundtrip_witness :
    (batch [annF, annW, annN] 2).flatten = [annF, annW, annN] ∧
    (∀ b ∈ (batch [annF, annW, annN] 2).dropLast, b.length = 2) ∧
    ([annF, annW, annN].length ≤ 2 → batch [annF, annW, annN] 2 = [[annF, annW, annN]]) :=
  batch_roundtrip [annF, annW, annN] 2 (by decide)

/-! ## Claim C2 -/

theorem filter_level_length_ne_zero (A : List Annotation) (lv : AnnotationLevel) :
    (A.filter (fun a => a.annotation_level == lv)).length ≠ 0 ↔
      ∃ a ∈ A, a.annotation_level = lv := by
  rw [Ne, List.length_eq_zero, List.filter_eq_nil_iff]
  simp

theorem getConclusion_char (A : List Annotation) :
    getConclusion A =
      if ∃ a ∈ A, a.annotation_level = .failure then .failure
      else if ∃ a ∈ A, a.annotation_level = .warning then .neutral
      else .success := by
  unfold getConclusion
  by_cases h0 : A.length = 0
  · have : A = [] := List.length_eq_zero.mp h0
    subst this
    simp
  · rw [if_neg h0]
    by_cases hf : ∃ a ∈ A, a.annotation_level = .failure
    · rw [if_pos ((filter_level_length_ne_zero A .failure).mpr hf), if_pos hf]
    · rw [if_neg (fun h => hf ((filter_level_length_ne_zero A .failure).mp h)), if_neg hf]
      by_cases hw : ∃ a ∈ A, a.annotation_level = .warning
      · rw [if_pos ((filter_level_length_ne_zero A .warning).mpr hw), if_pos hw]
      · rw [if_neg (fun h => hw ((filter_level_length_ne_zero A .warning).mp h)), if_neg hw]

/-- Claim C2: the Verdict Calculator returns `success` on the empty list,
`failure` when some annotation has level failure, otherwise `neutral` when
some annotation has level warning, otherwise `success`; notice-level
annotations never change the result, and the result is invariant under
permutation. -/
theorem getConclusion_spec (A : List Annotation) :
    (A = [] → getConclusion A = .success) ∧
    ((∃ a ∈ A, a.annotation_level = .failure) → getConclusion A = .failure) ∧
    ((∀ a ∈ A, a.annotation_level ≠ .failure) → (∃ a ∈ A, a.annotation_level = .warning) →
      getConclusion A = .neutral) ∧
    ((∀ a ∈ A, a.annotation_level ≠ .failure ∧ a.annotation_level ≠ .warning) →
      getConclusion A = .success) ∧
    (∀ a, a.annotation_level = .notice → getConclusion (a :: A) = getConclusion A) ∧
    (∀ B, A.Perm B → getConclusion A = getConclusion B) := by
  refine ⟨?_, ?_, ?_, ?_, ?_, ?_⟩
  · intro h
    subst h
    rfl
  · intro hf
    rw [getConclusion_char, if_pos hf]
  · intro hnf hw
    have hf : ¬ ∃ a ∈ A, a.annotation_level = .failure := by
      rintro ⟨a, ha, hlv⟩
      exact hnf a ha hlv
    rw [getConclusion_char, if_neg hf, if_pos hw]
  · intro hn
    have hf : ¬ ∃ a ∈ A, a.annotation_level = .failure := by
      rintro ⟨a, ha, hlv⟩
      exact (hn a ha).1 hlv
    have hw : ¬ ∃ a ∈ A, a.annotation_level = .warning := by
      rintro ⟨a, ha, hlv⟩
      exact (hn a ha).2 hlv
    rw [getConclusion_char, if_neg hf, if_neg hw]
  · intro a ha
    rw [getConclusion_char, getConclusion_char]
    have hfa : (∃ b ∈ a :: A, b.annotation_level = .failure) ↔
        ∃ b ∈ A, b.annotation_level = .failure := by
      simp only [List.mem_cons]
      constructor
      · rintro ⟨b, hb | hb, hlv⟩
        · subst hb
          rw [ha] at hlv
          exact absurd hlv (by simp)
        · exact ⟨b, hb, hlv⟩
      · rintro ⟨b, hb, hlv⟩
        exact ⟨b, Or.inr hb, hlv⟩
    have hwa : (∃ b ∈ a :: A, b.annotation_level = .warning) ↔
        ∃ b ∈ A, b.annotation_level = .warning := by
      simp only [List.mem_cons]
      constructor
      · rintro ⟨b, hb | hb, hlv⟩
        · subst hb
          rw [ha] at hlv
          exact absurd hlv (by simp)
        · exact ⟨b, hb, hlv⟩
      · rintro ⟨b, hb, hlv⟩
        exact ⟨b, Or.inr hb, hlv⟩
    simp only [hfa, hwa]
  · intro B hperm
    rw [getConclusion_char, getConclusion_char]
    have hm : ∀ b, b ∈ A ↔ b ∈ B := fun b => hperm.mem_iff
    have hfa : (∃ a ∈ A, a.annotation_level = .failure) ↔
        ∃ a ∈ B, a.annotation_level = .failure := by
      constructor
      · rintro ⟨a, ha, hlv⟩
        exact ⟨a, (hm a).mp ha, hlv⟩
      · rintro ⟨a, ha, hlv⟩
        exact ⟨a, (hm a).mpr ha, hlv⟩
    have hwa : (∃ a ∈ A, a.annotation_level = .warning) ↔
        ∃ a ∈ B, a.annotation_level = .warning := by
      constructor
      · rintro ⟨a, ha, hlv⟩
        exact ⟨a, (hm a).mp ha, hlv⟩
      · rintro ⟨a, ha, hlv⟩
        exact ⟨a, (hm a).mpr ha, hlv⟩
    simp only [hfa, hwa]

/-- Witness for C2 at the concrete list `[annW, annF]`: the failure wins over
the warning, and the verdict is permutation-invariant. -/
theorem getConclusion_spec_witness :
    getConclusion [annW, annF] = .failure ∧
    getConclusion [annW, annN] = .neutral ∧
    getConclusion [annW, annF] = getConclusion [annF, annW] :=
  ⟨(getConclusion_spec [annW, annF]).2.1 ⟨annF, by decide, rfl⟩,
   (getConclusion_spec [annW, annN]).2.2.1 (by decide) ⟨annW, by decide, rfl⟩,
   (getConclusion_spec [annW, annF]).2.2.2.2.2 [annF, annW] (List.Perm.swap annF annW [])⟩

/-! ## Claims C3 and C10: the Check Reporter's upsert protocol -/

theorem find?_eq_head?_filter (p : α → Bool) (l : List α) :
    l.find? p = (l.filter p).head? := by
  induction l with
  | nil => simp
  | cons a t ih =>
    by_cases h : p a
    · rw [List.find?_cons_of_pos t h, List.filter_cons_of_pos h]
      rfl
    · rw [List.find?_cons_of_neg t h, List.filter_cons_of_neg h, ih]

/-- Evaluation: `createCheckEvents` when the listing call fails. -/
theorem createCheckEvents_eq_error (gh : GitHubEnv) (name title : String)
    (anns : List Annotation) (numErrors : Nat) (conclusion : Conclusion) (err : String)
    (hl : gh.listForRef (resolveSha gh) = .error err) :
    createCheckEvents gh name title anns numErrors conclusion =
      [Event.log .info (uploadMsg anns numErrors name conclusion),
       Event.apiListForRef (resolveSha gh)] := by
  simp only [createCheckEvents, hl]

/-- Evaluation: `createCheckEvents` on the create branch. -/
theorem createCheckEvents_eq_create (gh : GitHubEnv) (name title : String)
    (anns : List Annotation) (numErrors : Nat) (conclusion : Conclusion)
    (rs : List CheckRun)
    (hl : gh.listForRef (resolveSha gh) = .ok rs)
    (hfind : rs.find? (fun c => c.name == name) = none) :
    createCheckEvents gh name title anns numErrors conclusion =
      [Event.log .info (uploadMsg anns numErrors name conclusion),
       Event.apiListForRef (resolveSha gh),
       Event.apiCreate (mkCreateRequest (resolveSha gh) name title anns numErrors
         conclusion)] := by
  simp only [createCheckEvents, hl, hfind]

/-- Evaluation: `createCheckEvents` on the update branch. -/
theorem createCheckEvents_eq_update (gh : GitHubEnv) (name title : String)
    (anns : List Annotation) (numErrors : Nat) (conclusion : Conclusion)
    (rs : List CheckRun) (ex : CheckRun)
    (hl : gh.listForRef (resolveSha gh) = .ok rs)
    (hfind : rs.find? (fun c => c.name == name) = some ex) :
    createCheckEvents gh name title anns numErrors conclusion =
      [Event.log .info (uploadMsg anns numErrors name conclusion),
       Event.apiListForRef (resolveSha gh),
       Event.apiUpdate (mkUpdateRequest ex.id title anns numErrors conclusion)] := by
  simp only [createCheckEvents, hl, hfind]

/-- Helper: when listing succeeds and no listed run matches the name, the
report calls among the batch call events are exactly the one create request. -/
theorem createCheckEvents_filter_create (gh : GitHubEnv) (name title : String)
    (anns : List Annotation) (numErrors : Nat) (conclusion : Conclusion)
    (rs : List CheckRun)
    (hlist : gh.listForRef (resolveSha gh) = .ok rs)
    (hfind : rs.find? (fun c => c.name == name) = none) :
    (createCheckEvents gh name title anns numErrors conclusion).filter Event.isReportCall =
      [Event.apiCreate (mkCreateRequest (resolveSha gh) name title anns numErrors
        conclusion)] := by
  simp only [createCheckEvents, hlist, hfind]
  simp [Event.isReportCall]

/-- Helper: when listing succeeds and the name search returns a run, the
report calls among the batch call events are exactly the one update request
targeting that run. -/
theorem createCheckEvents_filter_update (gh : GitHubEnv) (name title : String)
    (anns : List Annotation) (numErrors : Nat) (conclusion : Conclusion)
    (rs : List CheckRun) (ex : CheckRun)
    (hlist : gh.listForRef (resolveSha gh) = .ok rs)
    (hfind : rs.find? (fun c => c.name == name) = some ex) :
    (createCheckEvents gh name title anns numErrors conclusion).filter Event.isReportCall =
      [Event.apiUpdate (mkUpdateRequest ex.id title anns numErrors conclusion)] := by
  simp only [createCheckEvents, hlist, hfind]
  simp [Event.isReportCall]

/-- Helper: when listing succeeds, the list call against the resolved commit
is among the batch call events. -/
theorem createCheckEvents_mem_list (gh : GitHubEnv) (name title : String)
    (anns : List Annotation) (numErrors : Nat) (conclusion : Conclusion)
    (rs : List CheckRun)
    (hlist : gh.listForRef (resolveSha gh) = .ok rs) :
    Event.apiListForRef (resolveSha gh) ∈
      createCheckEvents gh name title anns numErrors conclusion := by
  simp only [createCheckEvents, hlist]
  cases rs.find? (fun c => c.name == name) <;> simp

/-- Claim C3: a batch call of the Check Reporter lists the check runs of the
resolved commit; when no listed run has the configured name it performs
exactly one report call, a create carrying that name, the resolved commit as
`head_sha`, the given conclusion and status `completed`; when the name search
succeeds it performs exactly one report call, an update of that same run
(`check_run_id` equal to the found run's id) with the new conclusion and
output, again with status `completed`. -/
theorem createCheck_upsert (gh : GitHubEnv) (name title : String)
    (anns : List Annotation) (numErrors : Nat) (conclusion : Conclusion)
    (rs : List CheckRun)
    (hlist : gh.listForRef (resolveSha gh) = .ok rs) :
    Event.apiListForRef (resolveSha gh) ∈
      (createCheck gh name title anns numErrors conclusion).1 ∧
    ((∀ c ∈ rs, c.name ≠ name) →
      (createCheck gh name title anns numErrors conclusion).1.filter Event.isReportCall =
        [Event.apiCreate (mkCreateRequest (resolveSha gh) name title anns numErrors
          conclusion)]) ∧
    (∀ ex, rs.find? (fun c => c.name == name) = some ex →
      ex.name = name ∧
      (createCheck gh name title anns numErrors conclusion).1.filter Event.isReportCall =
        [Event.apiUpdate (mkUpdateRequest ex.id title anns numErrors conclusion)]) := by
  refine ⟨createCheckEvents_mem_list gh name title anns numErrors conclusion rs hlist,
    ?_, ?_⟩
  · intro hno
    have hfind : rs.find? (fun c => c.name == name) = none := by
      rw [List.find?_eq_none]
      intro c hc
      simp only [beq_iff_eq]
      exact hno c hc
    exact createCheckEvents_filter_create gh name title anns numErrors conclusion rs
      hlist hfind
  · intro ex hfind
    have hname : ex.name = name := by
      have := List.find?_some hfind
      simpa using this
    exact ⟨hname, createCheckEvents_filter_update gh name title anns numErrors conclusion
      rs ex hlist hfind⟩

/-- Concrete GitHub environment for the C3 witness: one existing check run
named Lint on the resolved commit, all remote calls succeeding. -/
def ghEnvLint : GitHubEnv :=
  { contextSha := "c0ffee"
    prHeadSha := none
    listForRef := fun _ => .ok [{ id := 7, name := "Lint" }]
    createResult := fun _ => .ok ()
    updateResult := fun _ => .ok () }

/-- Witness for C3: against `ghEnvLint`, the call with name Lint takes the
update branch targeting run 7. -/
theorem createCheck_upsert_witness :
    Event.apiListForRef (resolveSha ghEnvLint) ∈
      (createCheck ghEnvLint "Lint" "t" [annF] 1 .failure).1 ∧
    ((∀ c ∈ [({ id := 7, name := "Lint" } : CheckRun)], c.name ≠ "Lint") →
      (createCheck ghEnvLint "Lint" "t" [annF] 1 .failure).1.filter Event.isReportCall =
        [Event.apiCreate (mkCreateRequest (resolveSha ghEnvLint) "Lint" "t" [annF] 1
          .failure)]) ∧
    (∀ ex, [({ id := 7, name := "Lint" } : CheckRun)].find? (fun c => c.name == "Lint") =
        some ex →
      ex.name = "Lint" ∧
      (createCheck ghEnvLint "Lint" "t" [annF] 1 .failure).1.filter Event.isReportCall =
        [Event.apiUpdate (mkUpdateRequest ex.id "t" [annF] 1 .failure)]) :=
  createCheck_upsert ghEnvLint "Lint" "t" [annF] 1 .failure
    [{ id := 7, name := "Lint" }] rfl

/-- Claim C10: when the listed check runs contain more than one run with the
configured name, the single report call is an update targeting the first
matching run in listed order (the head of the name-filtered sublist), and no
create call is made. -/
theorem createCheck_duplicate_names (gh : GitHubEnv) (name title : String)
    (anns : List Annotation) (numErrors : Nat) (conclusion : Conclusion)
    (rs : List CheckRun)
    (hlist : gh.listForRef (resolveSha gh) = .ok rs)
    (hmulti : 1 < (rs.filter (fun c => c.name == name)).length) :
    ∃ ex, (rs.filter (fun c => c.name == name)).head? = some ex ∧
      (createCheck gh name title anns numErrors conclusion).1.filter Event.isReportCall =
        [Event.apiUpdate (mkUpdateRequest ex.id title anns numErrors conclusion)] := by
  have hne : rs.filter (fun c => c.name == name) ≠ [] := by
    intro h
    rw [h] at hmulti
    exact absurd hmulti (by decide)
  cases hhead : (rs.filter (fun c => c.name == name)).head? with
  | none => exact absurd (List.head?_eq_none_iff.mp hhead) hne
  | some ex =>
    have hfind : rs.find? (fun c => c.name == name) = some ex := by
      rw [find?_eq_head?_filter, hhead]
    refine ⟨ex, rfl, ?_⟩
    exact createCheckEvents_filter_update gh name title anns numErrors conclusion rs ex
      hlist hfind

/-- Concrete GitHub environment for the C10 witness: two runs named Lint. -/
def ghEnvTwoLint : GitHubEnv :=
  { contextSha := "c0ffee"
    prHeadSha := some "abc123"
    listForRef := fun _ => .ok [{ id := 3, name := "Lint" },
      { id := 9, name := "Lint" }, { id := 4, name := "Other" }]
    createResult := fun _ => .ok ()
    updateResult := fun _ => .ok () }

/-- Witness for C10: with two runs named Lint listed, the update targets the
first (id 3). -/
theorem createCheck_duplicate_names_witness :
    ∃ ex, ([{ id := 3, name := "Lint" }, { id := 9, name := "Lint" },
        ({ id := 4, name := "Other" } : CheckRun)].filter
          (fun c => c.name == "Lint")).head? = some ex ∧
      (createCheck ghEnvTwoLint "Lint" "t" [annF] 1 .failure).1.filter Event.isReportCall =
        [Event.apiUpdate (mkUpdateRequest ex.id "t" [annF] 1 .failure)] :=
  createCheck_duplicate_names ghEnvTwoLint "Lint" "t" [annF] 1 .failure
    [{ id := 3, name := "Lint" }, { id := 9, name := "Lint" }, { id := 4, name := "Other" }]
    rfl (by decide)

/-! ## Unfolding lemmas for `run` -/

/-- Helper: with a valid mode and a non-empty search result, `run` in
separate mode is the prelude followed by the batch loop, and the outcome
reflects the loop's error. -/
theorem run_separate_eq (inputs : ActionInputs) (env : PipelineEnv)
    (hmode : inputs.mode = "separate")
    (hfiles : (env.findResults inputs.path).filesToUpload ≠ []) :
    run inputs env =
      ((Event.searchCall inputs.path :: preludeEvents inputs env) ++
        (runBatches env.github inputs.name inputs.title (groupedAnnotations inputs env)
          (fullAnnotations inputs env).length
          (getConclusion (fullAnnotations inputs env))).1,
       match (runBatches env.github inputs.name inputs.title (groupedAnnotations inputs env)
          (fullAnnotations inputs env).length
          (getConclusion (fullAnnotations inputs env))).2 with
       | some err => .failed err
       | none => .success) := by
  unfold run
  rw [hmode]
  rw [if_neg (by decide)]
  rw [if_neg (fun h => hfiles (List.length_eq_zero.mp h))]
  rw [if_pos rfl]

/-- Helper: with a valid mode and a non-empty search result, `run` in inline
mode is the prelude followed by the per-annotation inline events, with a
successful outcome. -/
theorem run_inline_eq (inputs : ActionInputs) (env : PipelineEnv)
    (hmode : inputs.mode = "inline")
    (hfiles : (env.findResults inputs.path).filesToUpload ≠ []) :
    run inputs env =
      ((Event.searchCall inputs.path :: preludeEvents inputs env) ++
        (fullAnnotations inputs env).flatMap inlineEvents, .success) := by
  unfold run
  rw [hmode]
  rw [if_neg (by decide)]
  rw [if_neg (fun h => hfiles (List.length_eq_zero.mp h))]
  rw [if_neg (by decide)]

/-- Helper: with a valid mode and an empty search result, `run` stops after
the search with one warning line and a successful outcome. -/
theorem run_emptyFiles_eq (inputs : ActionInputs) (env : PipelineEnv)
    (hmode : inputs.mode = "inline" ∨ inputs.mode = "separate")
    (hempty : (env.findResults inputs.path).filesToUpload = []) :
    run inputs env =
      ([Event.searchCall inputs.path,
        Event.log .warning ("No files were found for the provided path: " ++ inputs.path
          ++ ". No results will be uploaded.")], .success) := by
  unfold run
  have hcond : ¬(inputs.mode ≠ "inline" ∧ inputs.mode ≠ "separate") := by
    rcases hmode with h | h <;> rw [h] <;> decide
  rw [if_neg hcond]
  rw [if_pos (by rw [hempty]; rfl)]

/-! ## Claim C7 -/

/-- Claim C7: for a mode that is neither `inline` nor `separate`, `run` emits
exactly one error log line, invokes no search, parse or report collaborator,
and the process outcome is not marked failed. -/
theorem run_invalid_mode (inputs : ActionInputs) (env : PipelineEnv)
    (h1 : inputs.mode ≠ "inline") (h2 : inputs.mode ≠ "separate") :
    run inputs env =
      ([Event.log .error ("Invalid mode provided (" ++ inputs.mode
          ++ "). Use \"inline\" or \"separate\".")], .success) ∧
    ((run inputs env).1.countP Event.isErrorLog) = 1 ∧
    (run inputs env).1.filter Event.isCollaboratorCall = [] ∧
    ∀ msg, (run inputs env).2 ≠ .failed msg := by
  have hrun : run inputs env =
      ([Event.log .error ("Invalid mode provided (" ++ inputs.mode
          ++ "). Use \"inline\" or \"separate\".")], .success) := by
    unfold run
    rw [if_pos ⟨h1, h2⟩]
  refine ⟨hrun, ?_, ?_, ?_⟩
  · rw [hrun]
    simp [Event.isErrorLog]
  · rw [hrun]
    simp [Event.isCollaboratorCall]
  · intro msg
    rw [hrun]
    simp

/-- Concrete environment shared by the run-level witnesses: one result file
parsing to one failure and one warning, a clean remote API with no existing
runs. -/
def wEnv : PipelineEnv :=
  { findResults := fun _ => { filesToUpload := ["r.xml"], rootDirectory := "." }
    annotationsForPath := fun _ => [annF, annW]
    github :=
      { contextSha := "c0ffee"
        prHeadSha := none
        listForRef := fun _ => .ok []
        createResult := fun _ => .ok ()
        updateResult := fun _ => .ok () } }

/-- Inputs with the invalid mode value bogus. -/
def wInputsBogus : ActionInputs :=
  { path := "results", mode := "bogus", name := "Checkstyle", title := "Checkstyle",
    token := "tok" }

/-- Witness for C7 at the concrete invalid mode bogus. -/
theorem run_invalid_mode_witness :
    (run wInputsBogus wEnv =
      ([Event.log .error ("Invalid mode provided (" ++ wInputsBogus.mode
          ++ "). Use \"inline\" or \"separate\".")], .success) ∧
    ((run wInputsBogus wEnv).1.countP Event.isErrorLog) = 1 ∧
    (run wInputsBogus wEnv).1.filter Event.isCollaboratorCall = [] ∧
    ∀ msg, (run wInputsBogus wEnv).2 ≠ .failed msg) :=
  run_invalid_mode wInputsBogus wEnv (by decide) (by decide)

/-! ## Claim C9 -/

/-- Claim C9: when the search collaborator returns no files, `run` logs one
warning line, terminates with a successful outcome, performs no report call
and issues no inline diagnostic. -/
theorem run_no_files (inputs : ActionInputs) (env : PipelineEnv)
    (hmode : inputs.mode = "inline" ∨ inputs.mode = "separate")
    (hempty : (env.findResults inputs.path).filesToUpload = []) :
    (run inputs env).2 = .success ∧
    (run inputs env).1.filter Event.isReportCall = [] ∧
    (run inputs env).1.filterMap Event.cmd? = [] ∧
    ((run inputs env).1.countP Event.isWarningLog) = 1 := by
  have hrun := run_emptyFiles_eq inputs env hmode hempty
  refine ⟨?_, ?_, ?_, ?_⟩ <;> rw [hrun] <;> rfl

/-- Environment whose search finds no files. -/
def wEnvNoFiles : PipelineEnv :=
  { findResults := fun _ => { filesToUpload := [], rootDirectory := "." }
    annotationsForPath := fun _ => []
    github :=
      { contextSha := "c0ffee"
        prHeadSha := none
        listForRef := fun _ => .ok []
        createResult := fun _ => .ok ()
        updateResult := fun _ => .ok () } }

/-- Inputs selecting separate mode. -/
def wInputsSeparate : ActionInputs :=
  { path := "results", mode := "separate", name := "Checkstyle", title := "Checkstyle",
    token := "tok" }

/-- Witness for C9 at a concrete empty search result in separate mode. -/
theorem run_no_files_witness :
    (run wInputsSeparate wEnvNoFiles).2 = .success ∧
    (run wInputsSeparate wEnvNoFiles).1.filter Event.isReportCall = [] ∧
    (run wInputsSeparate wEnvNoFiles).1.filterMap Event.cmd? = [] ∧
    ((run wInputsSeparate wEnvNoFiles).1.countP Event.isWarningLog) = 1 :=
  run_no_files wInputsSeparate wEnvNoFiles (Or.inr rfl) rfl

/-! ## Trace lemmas for the prelude and the inline emitter -/

theorem parseCalls_filter_eq_nil (files : List String) (p : Event → Bool)
    (hp : ∀ f, p (Event.parseCall f) = false) :
    (files.map Event.parseCall).filter p = [] := by
  induction files with
  | nil => rfl
  | cons f t ih =>
    rw [List.map_cons, List.filter_cons, hp f]
    simpa using ih

theorem parseCalls_filterMap_eq_nil {β : Type} (files : List String) (g : Event → Option β)
    (hg : ∀ f, g (Event.parseCall f) = none) :
    (files.map Event.parseCall).filterMap g = [] := by
  induction files with
  | nil => rfl
  | cons f t ih =>
    rw [List.map_cons, List.filterMap_cons, hg f]
    exact ih

theorem preludeEvents_filter_eq_nil (inputs : ActionInputs) (env : PipelineEnv)
    (p : Event → Bool)
    (hlog : ∀ lv m, p (Event.log lv m) = false)
    (hparse : ∀ f, p (Event.parseCall f) = false) :
    (preludeEvents inputs env).filter p = [] := by
  unfold preludeEvents
  rw [List.filter_append, List.filter_append,
    parseCalls_filter_eq_nil _ p hparse]
  simp [List.filter_cons, hlog]

theorem preludeEvents_filterMap_eq_nil {β : Type} (inputs : ActionInputs) (env : PipelineEnv)
    (g : Event → Option β)
    (hlog : ∀ lv m, g (Event.log lv m) = none)
    (hparse : ∀ f, g (Event.parseCall f) = none) :
    (preludeEvents inputs env).filterMap g = [] := by
  unfold preludeEvents
  rw [List.filterMap_append, List.filterMap_append,
    parseCalls_filterMap_eq_nil _ g hparse]
  simp [List.filterMap_cons, hlog]

theorem headEvents_filter_eq_nil (inputs : ActionInputs) (env : PipelineEnv)
    (p : Event → Bool)
    (hsearch : ∀ s, p (Event.searchCall s) = false)
    (hlog : ∀ lv m, p (Event.log lv m) = false)
    (hparse : ∀ f, p (Event.parseCall f) = false) :
    (Event.searchCall inputs.path :: preludeEvents inputs env).filter p = [] := by
  rw [List.filter_cons, hsearch]
  simpa using preludeEvents_filter_eq_nil inputs env p hlog hparse

theorem headEvents_filterMap_eq_nil {β : Type} (inputs : ActionInputs) (env : PipelineEnv)
    (g : Event → Option β)
    (hsearch : ∀ s, g (Event.searchCall s) = none)
    (hlog : ∀ lv m, g (Event.log lv m) = none)
    (hparse : ∀ f, g (Event.parseCall f) = none) :
    (Event.searchCall inputs.path :: preludeEvents inputs env).filterMap g = [] := by
  rw [List.filterMap_cons, hsearch]
  exact preludeEvents_filterMap_eq_nil inputs env g hlog hparse

theorem inlineEvents_filter_remote (anns : List Annotation) :
    (anns.flatMap inlineEvents).filter Event.isRemoteCall = [] := by
  induction anns with
  | nil => rfl
  | cons a t ih =>
    rw [List.flatMap_cons, List.filter_append, ih, List.append_nil]
    unfold inlineEvents
    split <;> rfl

theorem inlineEvents_filterMap_cmd (anns : List Annotation) :
    (anns.flatMap inlineEvents).filterMap Event.cmd? =
      (anns.filter (fun a => a.annotation_level == AnnotationLevel.failure)).map
        (fun a => { command := "error",
                    properties := { file := a.path, line := a.start_line,
                                    col := a.start_column },
                    message := a.message }) := by
  induction anns with
  | nil => rfl
  | cons a t ih =>
    rw [List.flatMap_cons, List.filterMap_append, ih, List.filter_cons]
    unfold inlineEvents
    cases h : (a.annotation_level == AnnotationLevel.failure) with
    | true =>
      rw [if_pos rfl, if_pos rfl]
      rfl
    | false =>
      rw [if_neg (by decide), if_neg (by decide)]
      rfl

theorem inlineEvents_filterMap_info (anns : List Annotation) :
    (anns.flatMap inlineEvents).filterMap Event.infoMsg? = anns.map annotationLogMsg := by
  induction anns with
  | nil => rfl
  | cons a t ih =>
    rw [List.flatMap_cons, List.filterMap_append, ih, List.map_cons]
    unfold inlineEvents
    cases h : (a.annotation_level == AnnotationLevel.failure) with
    | true =>
      rw [if_pos rfl]
      rfl
    | false =>
      rw [if_neg (by decide)]
      rfl

/-! ## Claim C6 -/

/-- The inline diagnostic command the source issues for a failure-level
finding (main.ts lines 76-84). -/
def inlineCommandFor (a : Annotation) : IssuedCommand :=
  { command := "error",
    properties := { file := a.path, line := a.start_line, col := a.start_column },
    message := a.message }

/-- Claim C6: in inline mode, the trace is the prelude followed by the
per-annotation inline events; no remote checks-API call of any kind is made;
the issued diagnostic commands are exactly one `error` command per
failure-level annotation, in order, carrying its path, start line, start
column and message; and the inline segment logs exactly one info line per
annotation, in order, carrying its level, path, start line and message. -/
theorem run_inline_mode (inputs : ActionInputs) (env : PipelineEnv)
    (hmode : inputs.mode = "inline")
    (hfiles : (env.findResults inputs.path).filesToUpload ≠ []) :
    (run inputs env).2 = .success ∧
    (run inputs env).1.filter Event.isRemoteCall = [] ∧
    (run inputs env).1.filterMap Event.cmd? =
      ((fullAnnotations inputs env).filter
        (fun a => a.annotation_level == AnnotationLevel.failure)).map inlineCommandFor ∧
    (run inputs env).1 = (Event.searchCall inputs.path :: preludeEvents inputs env) ++
      (fullAnnotations inputs env).flatMap inlineEvents ∧
    ((fullAnnotations inputs env).flatMap inlineEvents).filterMap Event.infoMsg? =
      (fullAnnotations inputs env).map annotationLogMsg := by
  have hrun := run_inline_eq inputs env hmode hfiles
  refine ⟨?_, ?_, ?_, ?_, ?_⟩
  · rw [hrun]
  · rw [hrun]
    show ((Event.searchCall inputs.path :: preludeEvents inputs env) ++
      (fullAnnotations inputs env).flatMap inlineEvents).filter Event.isRemoteCall = []
    rw [List.filter_append,
      headEvents_filter_eq_nil inputs env Event.isRemoteCall (fun s => rfl)
        (fun lv m => rfl) (fun f => rfl),
      inlineEvents_filter_remote]
    rfl
  · rw [hrun]
    show ((Event.searchCall inputs.path :: preludeEvents inputs env) ++
      (fullAnnotations inputs env).flatMap inlineEvents).filterMap Event.cmd? = _
    rw [List.filterMap_append,
      headEvents_filterMap_eq_nil inputs env Event.cmd? (fun s => rfl)
        (fun lv m => rfl) (fun f => rfl),
      inlineEvents_filterMap_cmd, List.nil_append]
    rfl
  · rw [hrun]
  · exact inlineEvents_filterMap_info (fullAnnotations inputs env)

/-- Inputs selecting inline mode. -/
def wInputsInline : ActionInputs :=
  { path := "results", mode := "inline", name := "Checkstyle", title := "Checkstyle",
    token := "tok" }

/-- Witness for C6 at the concrete environment `wEnv` (one failure, one
warning): one diagnostic for the failure, one log line per annotation, no
remote call. -/
theorem run_inline_mode_witness :
    (run wInputsInline wEnv).2 = .success ∧
    (run wInputsInline wEnv).1.filter Event.isRemoteCall = [] ∧
    (run wInputsInline wEnv).1.filterMap Event.cmd? =
      ((fullAnnotations wInputsInline wEnv).filter
        (fun a => a.annotation_level == AnnotationLevel.failure)).map inlineCommandFor ∧
    (run wInputsInline wEnv).1 =
      (Event.searchCall wInputsInline.path :: preludeEvents wInputsInline wEnv) ++
      (fullAnnotations wInputsInline wEnv).flatMap inlineEvents ∧
    ((fullAnnotations wInputsInline wEnv).flatMap inlineEvents).filterMap Event.infoMsg? =
      (fullAnnotations wInputsInline wEnv).map annotationLogMsg :=
  run_inline_mode wInputsInline wEnv rfl (by decide)

/-! ## Claim C4 -/

/-- A create-or-update event carries the given total count in its summary and
the given conclusion (trivially satisfied by non-report events). -/
def reportOk (numErrors : Nat) (conclusion : Conclusion) (e : Event) : Prop :=
  (∀ r, e = Event.apiCreate r →
    r.output.summary = toString numErrors ++ " violation(s) found" ∧
    r.conclusion = conclusion ∧ r.status = "completed") ∧
  (∀ r, e = Event.apiUpdate r →
    r.output.summary = toString numErrors ++ " violation(s) found" ∧
    r.conclusion = conclusion ∧ r.status = "completed")

theorem reportOk_of_not_report (numErrors : Nat) (conclusion : Conclusion) (e : Event)
    (he : e.isReportCall = false) : reportOk numErrors conclusion e := by
  constructor <;> intro r hr <;> rw [hr] at he <;> exact Bool.noConfusion he

theorem createCheckEvents_reportOk (gh : GitHubEnv) (name title : String)
    (anns : List Annotation) (numErrors : Nat) (conclusion : Conclusion) :
    ∀ e ∈ createCheckEvents gh name title anns numErrors conclusion,
      reportOk numErrors conclusion e := by
  intro e he
  have hcr : reportOk numErrors conclusion
      (Event.apiCreate (mkCreateRequest (resolveSha gh) name title anns numErrors
        conclusion)) := by
    refine ⟨?_, ?_⟩
    · intro r hr
      injection hr with h
      subst h
      exact ⟨rfl, rfl, rfl⟩
    · intro r hr
      exact Event.noConfusion hr
  have hup : ∀ ex : CheckRun, reportOk numErrors conclusion
      (Event.apiUpdate (mkUpdateRequest ex.id title anns numErrors conclusion)) := by
    intro ex
    refine ⟨?_, ?_⟩
    · intro r hr
      exact Event.noConfusion hr
    · intro r hr
      injection hr with h
      subst h
      exact ⟨rfl, rfl, rfl⟩
  cases hl : gh.listForRef (resolveSha gh) with
  | error err =>
    rw [createCheckEvents_eq_error gh name title anns numErrors conclusion err hl] at he
    rcases List.mem_cons.mp he with rfl | he2
    · exact reportOk_of_not_report _ _ _ rfl
    · rcases List.mem_cons.mp he2 with rfl | he3
      · exact reportOk_of_not_report _ _ _ rfl
      · exact absurd he3 (List.not_mem_nil e)
  | ok checkRuns =>
    cases hfind : checkRuns.find? (fun c => c.name == name) with
    | none =>
      rw [createCheckEvents_eq_create gh name title anns numErrors conclusion checkRuns
        hl hfind] at he
      rcases List.mem_cons.mp he with rfl | he2
      · exact reportOk_of_not_report _ _ _ rfl
      · rcases List.mem_cons.mp he2 with rfl | he3
        · exact reportOk_of_not_report _ _ _ rfl
        · rcases List.mem_cons.mp he3 with rfl | he4
          · exact hcr
          · exact absurd he4 (List.not_mem_nil e)
    | some ex =>
      rw [createCheckEvents_eq_update gh name title anns numErrors conclusion checkRuns
        ex hl hfind] at he
      rcases List.mem_cons.mp he with rfl | he2
      · exact reportOk_of_not_report _ _ _ rfl
      · rcases List.mem_cons.mp he2 with rfl | he3
        · exact reportOk_of_not_report _ _ _ rfl
        · rcases List.mem_cons.mp he3 with rfl | he4
          · exact hup ex
          · exact absurd he4 (List.not_mem_nil e)

theorem runBatches_reportOk (gh : GitHubEnv) (name title : String)
    (batches : List (List Annotation)) (numErrors : Nat) (conclusion : Conclusion) :
    ∀ e ∈ (runBatches gh name title batches numErrors conclusion).1,
      reportOk numErrors conclusion e := by
  induction batches with
  | nil =>
    intro e he
    exact absurd he (List.not_mem_nil e)
  | cons b rest ih =>
    intro e he
    simp only [runBatches] at he
    cases hc : (createCheck gh name title b numErrors conclusion).2 with
    | some err =>
      simp only [hc] at he
      exact createCheckEvents_reportOk gh name title b numErrors conclusion e he
    | none =>
      simp only [hc] at he
      rcases List.mem_append.mp he with h1 | h2
      · exact createCheckEvents_reportOk gh name title b numErrors conclusion e h1
      · exact ih e h2

/-- Claim C4: in separate mode, every create-or-update request carried by the
run's trace has `output.summary` equal to the violation count of the full
unbatched annotation sequence and the conclusion computed once over that full
sequence — for every batch, regardless of batch sizes. -/
theorem run_separate_totals (inputs : ActionInputs) (env : PipelineEnv)
    (hmode : inputs.mode = "separate")
    (hfiles : (env.findResults inputs.path).filesToUpload ≠ []) :
    ∀ e ∈ (run inputs env).1,
      reportOk (fullAnnotations inputs env).length
        (getConclusion (fullAnnotations inputs env)) e := by
  intro e he
  rw [run_separate_eq inputs env hmode hfiles] at he
  rcases List.mem_append.mp he with h1 | h2
  · refine reportOk_of_not_report _ _ e ?_
    have hnil : (Event.searchCall inputs.path ::
        preludeEvents inputs env).filter Event.isReportCall = [] :=
      headEvents_filter_eq_nil inputs env Event.isReportCall (fun s => rfl)
        (fun lv m => rfl) (fun f => rfl)
    cases hpe : e.isReportCall with
    | false => rfl
    | true =>
      have : e ∈ (Event.searchCall inputs.path ::
          preludeEvents inputs env).filter Event.isReportCall :=
        List.mem_filter.mpr ⟨h1, hpe⟩
      rw [hnil] at this
      exact absurd this (List.not_mem_nil e)
  · exact runBatches_reportOk env.github inputs.name inputs.title
      (groupedAnnotations inputs env) (fullAnnotations inputs env).length
      (getConclusion (fullAnnotations inputs env)) e h2

/-- Witness for C4 at the concrete separate-mode environment `wEnv`,
instantiated at the create event its single batch emits. -/
theorem run_separate_totals_witness :
    reportOk (fullAnnotations wInputsSeparate wEnv).length
      (getConclusion (fullAnnotations wInputsSeparate wEnv))
      (Event.apiCreate (mkCreateRequest "c0ffee" "Checkstyle" "Checkstyle"
        [annF, annW] 2 .failure)) :=
  run_separate_totals wInputsSeparate wEnv rfl (by decide)
    (Event.apiCreate (mkCreateRequest "c0ffee" "Checkstyle" "Checkstyle"
      [annF, annW] 2 .failure)) (by decide)

/-! ## Claim C8 -/

theorem runBatches_single (gh : GitHubEnv) (name title : String) (b : List Annotation)
    (numErrors : Nat) (conclusion : Conclusion) :
    (runBatches gh name title [b] numErrors conclusion).1 =
      createCheckEvents gh name title b numErrors conclusion := by
  simp only [runBatches]
  cases hc : (createCheck gh name title b numErrors conclusion).2 with
  | some err => simp only [hc, createCheck]
  | none => simp only [hc, createCheck, List.append_nil]

/-- Claim C8: the Batcher maps the empty sequence to one empty batch
(`batch [] L = [[]]`, not `[]`), so a separate-mode run whose search found
files but whose flattened annotation sequence is empty still performs exactly
one report call, carrying conclusion `success` and summary
`0 violation(s) found`. -/
theorem run_empty_annotations (inputs : ActionInputs) (env : PipelineEnv)
    (rs : List CheckRun) (L : Nat) (hL : 0 < L)
    (hmode : inputs.mode = "separate")
    (hfiles : (env.findResults inputs.path).filesToUpload ≠ [])
    (hempty : fullAnnotations inputs env = [])
    (hlist : env.github.listForRef (resolveSha env.github) = .ok rs) :
    batch [] L = [[]] ∧
    ∃ e, (run inputs env).1.filter Event.isReportCall = [e] ∧
      e.reportConclusion? = some .success ∧
      e.reportSummary? = some "0 violation(s) found" := by
  constructor
  · unfold batch
    rw [if_neg (by simp)]
  · have hg : groupedAnnotations inputs env = [[]] := by
      unfold groupedAnnotations
      rw [hempty]
      rfl
    have hrun := run_separate_eq inputs env hmode hfiles
    rw [hg, hempty] at hrun
    have htrace : (run inputs env).1 =
        (Event.searchCall inputs.path :: preludeEvents inputs env) ++
        (runBatches env.github inputs.name inputs.title [[]]
          (List.length ([] : List Annotation))
          (getConclusion ([] : List Annotation))).1 := by
      rw [hrun]
    rw [htrace, List.filter_append,
      headEvents_filter_eq_nil inputs env Event.isReportCall (fun s => rfl)
        (fun lv m => rfl) (fun f => rfl),
      runBatches_single, List.nil_append]
    cases hfind : rs.find? (fun c => c.name == inputs.name) with
    | none =>
      exact ⟨_, createCheckEvents_filter_create env.github inputs.name inputs.title []
        (List.length ([] : List Annotation)) (getConclusion ([] : List Annotation))
        rs hlist hfind, rfl, rfl⟩
    | some ex =>
      exact ⟨_, createCheckEvents_filter_update env.github inputs.name inputs.title []
        (List.length ([] : List Annotation)) (getConclusion ([] : List Annotation))
        rs ex hlist hfind, rfl, rfl⟩

/-- Environment whose search finds one file that parses to no annotations. -/
def wEnvEmptyAnns : PipelineEnv :=
  { findResults := fun _ => { filesToUpload := ["r.xml"], rootDirectory := "." }
    annotationsForPath := fun _ => []
    github :=
      { contextSha := "c0ffee"
        prHeadSha := none
        listForRef := fun _ => .ok []
        createResult := fun _ => .ok ()
        updateResult := fun _ => .ok () } }

/-- Witness for C8 in separate mode with a found file and zero annotations. -/
theorem run_empty_annotations_witness :
    batch [] 50 = [[]] ∧
    ∃ e, (run wInputsSeparate wEnvEmptyAnns).1.filter Event.isReportCall = [e] ∧
      e.reportConclusion? = some .success ∧
      e.reportSummary? = some "0 violation(s) found" :=
  run_empty_annotations wInputsSeparate wEnvEmptyAnns [] 50 (by decide) rfl (by decide)
    rfl rfl

/-! ## Claim C5 -/

theorem runBatches_stop (gh : GitHubEnv) (name title : String)
    (batches : List (List Annotation)) (numErrors : Nat) (conclusion : Conclusion)
    (e : String) (i : Nat) (hi : i < batches.length)
    (hfail : (createCheck gh name title (batches.get ⟨i, hi⟩) numErrors conclusion).2 =
      some e)
    (hok : ∀ j (hj : j < i),
      (createCheck gh name title (batches.get ⟨j, Nat.lt_trans hj hi⟩) numErrors
        conclusion).2 = none) :
    runBatches gh name title batches numErrors conclusion =
      (((batches.take (i + 1)).map
        (fun b => (createCheck gh name title b numErrors conclusion).1)).flatten,
       some e) := by
  revert i
  induction batches with
  | nil =>
    intro i hi hfail hok
    exact absurd hi (Nat.not_lt_zero i)
  | cons b rest ih =>
    intro i hi hfail hok
    cases i with
    | zero =>
      have hb : (createCheck gh name title b numErrors conclusion).2 = some e := hfail
      simp only [runBatches, hb]
      simp [createCheck]
    | succ j =>
      have h0 : (createCheck gh name title b numErrors conclusion).2 = none :=
        hok 0 (Nat.succ_pos j)
      simp only [runBatches, h0]
      have hj : j < rest.length := Nat.lt_of_succ_lt_succ hi
      have hfail2 : (createCheck gh name title (rest.get ⟨j, hj⟩) numErrors
          conclusion).2 = some e := hfail
      have hok2 : ∀ k (hk : k < j),
          (createCheck gh name title (rest.get ⟨k, Nat.lt_trans hk hj⟩) numErrors
            conclusion).2 = none :=
        fun k hk => hok (k + 1) (Nat.succ_lt_succ hk)
      rw [ih j hj hfail2 hok2]
      simp [createCheck]

/-- Claim C5: in separate mode, when the batch at index `i` is the first
whose create-or-update call fails (raising message `e`), the run terminates
with the failed outcome carrying `e`, and its trace contains exactly the
events of batches `0..i` — no later batch is submitted. -/
theorem run_batch_failure (inputs : ActionInputs) (env : PipelineEnv)
    (i : Nat) (e : String)
    (hmode : inputs.mode = "separate")
    (hfiles : (env.findResults inputs.path).filesToUpload ≠ [])
    (hi : i < (groupedAnnotations inputs env).length)
    (hfail : (createCheck env.github inputs.name inputs.title
        ((groupedAnnotations inputs env).get ⟨i, hi⟩)
        (fullAnnotations inputs env).length
        (getConclusion (fullAnnotations inputs env))).2 = some e)
    (hok : ∀ j (hj : j < i), (createCheck env.github inputs.name inputs.title
        ((groupedAnnotations inputs env).get ⟨j, Nat.lt_trans hj hi⟩)
        (fullAnnotations inputs env).length
        (getConclusion (fullAnnotations inputs env))).2 = none) :
    run inputs env =
      ((Event.searchCall inputs.path :: preludeEvents inputs env) ++
        (((groupedAnnotations inputs env).take (i + 1)).map
          (fun b => (createCheck env.github inputs.name inputs.title b
            (fullAnnotations inputs env).length
            (getConclusion (fullAnnotations inputs env))).1)).flatten,
       .failed e) := by
  rw [run_separate_eq inputs env hmode hfiles]
  rw [runBatches_stop env.github inputs.name inputs.title (groupedAnnotations inputs env)
    (fullAnnotations inputs env).length (getConclusion (fullAnnotations inputs env))
    e i hi hfail hok]

/-- Environment whose remote create call always fails with message boom. -/
def wEnvFail : PipelineEnv :=
  { findResults := fun _ => { filesToUpload := ["r.xml"], rootDirectory := "." }
    annotationsForPath := fun _ => [annF, annW]
    github :=
      { contextSha := "c0ffee"
        prHeadSha := none
        listForRef := fun _ => .ok []
        createResult := fun _ => .error "boom"
        updateResult := fun _ => .ok () } }

/-- Witness for C5: the single batch's create call fails with boom, the run
fails with boom and the trace stops after that batch. -/
theorem run_batch_failure_witness :
    run wInputsSeparate wEnvFail =
      ((Event.searchCall wInputsSeparate.path ::
          preludeEvents wInputsSeparate wEnvFail) ++
        (((groupedAnnotations wInputsSeparate wEnvFail).take (0 + 1)).map
          (fun b => (createCheck wEnvFail.github wInputsSeparate.name wInputsSeparate.title
            b (fullAnnotations wInputsSeparate wEnvFail).length
            (getConclusion (fullAnnotations wInputsSeparate wEnvFail))).1)).flatten,
       .failed "boom") :=
  run_batch_failure wInputsSeparate wEnvFail 0 "boom" rfl (by decide) (by decide)
    (by decide) (fun j hj => absurd hj (Nat.not_lt_zero j))

end CheckstyleAction
